import Mathlib

/-!
Verification of `blkcgroup_test_lib.py` (blkcgroup isolation test library).

The Python source is shallowly embedded below.  Python strings are modeled
as `List Char`, Python exceptions as the explicit error type `PyErr`
(IndexError for out-of-range subscripts, ValueError for `int('')`,
`raise ValueError`, KeyError for missing dict keys, and `extError` for
exceptions raised by external collaborators such as cgroup creation).
Python 2 integer division on non-negative values is `Nat` division (floor),
`<<` / `>>` are `Nat.shiftLeft` / `Nat.shiftRight`.  The unbounded loop of
`parse_containers` is embedded with explicit fuel (`parse_containers_fuel`);
`parse_containers` supplies fuel `text.length + 1`, which is proved
sufficient (`parse_containers_fuel_semi`).
-/

/-- Python exceptions relevant to the embedded code.  `outOfFuel` is an
artifact of the fuel-based embedding of the `parse_containers` loop and is
proved unreachable for the fuel actually supplied. -/
inductive PyErr where
  | valueError (msg : String)
  | indexError
  | keyError
  | extError (msg : String)
  | outOfFuel
deriving DecidableEq, Repr

deriving instance DecidableEq for Except

/-- Python's `str.isspace` class of characters stripped by `str.lstrip()`. -/
def pyIsSpace (c : Char) : Bool :=
  c == ' ' || c == '\t' || c == '\n' || c == '\r' || c == '\x0b' || c == '\x0c'

/-- `text.lstrip()`: drop leading whitespace. -/
def lstrip : List Char → List Char
  | [] => []
  | c :: rest => if pyIsSpace c then lstrip rest else c :: rest

/-- Numeric value of a digit run, as computed by Python's `int(value)`. -/
def natOfDigits (l : List Char) : Nat :=
  l.foldl (fun a c => a * 10 + (c.toNat - 48)) 0

/-- `parse_integer(text)` from the source: split off the leading digit run
matched by `re.match('\d*', text)` and convert it with `int`.  `int('')`
raises ValueError, so an input that does not start with a digit is an
error. -/
def parse_integer (l : List Char) : Except PyErr (Nat × List Char) :=
  let ds := l.takeWhile Char.isDigit
  if ds = [] then .error (.valueError "invalid literal for int() with base 10")
  else .ok (natOfDigits ds, l.dropWhile Char.isDigit)

/-- The delimiter set `' ,*%();'` of `parse_name`. -/
def nameStop (c : Char) : Bool :=
  c == ' ' || c == ',' || c == '*' || c == '%' || c == '(' || c == ')' || c == ';'

/-- `parse_name(text)`: scan `text[lth]` forward until a delimiter.
Running off the end of the string raises IndexError (the source indexes
`text[lth]` unconditionally). -/
def parse_name : List Char → Except PyErr (List Char × List Char)
  | [] => .error .indexError
  | c :: rest =>
    if nameStop c then .ok ([], c :: rest)
    else
      match parse_name rest with
      | .error e => .error e
      | .ok (nm, rest2) => .ok (c :: nm, rest2)

/-- `expect_delim(text, delim)`: require `text[0] == delim` and strip it. -/
def expect_delim (l : List Char) (d : Char) : Except PyErr (List Char) :=
  match l with
  | [] => .error .indexError
  | c :: rest =>
    if c ≠ d then
      .error (.valueError ("missing " ++ String.mk [d] ++ " at " ++ String.mk (c :: rest)))
    else .ok rest

/-- One parsed container: `{'dtf': ..., 'worker': ..., 'worker_repeat': ...}`.
`worker = none` models the absence of the `'worker'` dict key. -/
structure Container where
  dtf : Nat
  worker : Option String
  worker_repeat : Nat
deriving DecidableEq, Repr

/-- One iteration of the `parse_containers` loop body (source lines 106-121):
weight, discarded options token, optional worker with optional `*repeat`. -/
def parse_one (text0 : List Char) : Except PyErr (Container × List Char) :=
  match parse_integer (lstrip text0) with
  | .error e => .error e
  | .ok (dtf, text1) =>
    match parse_name text1 with
    | .error e => .error e
    | .ok (_options, text2) =>
      match parse_name (lstrip text2) with
      | .error e => .error e
      | .ok (worker, text3) =>
        if worker = [] then
          .ok ({ dtf := dtf, worker := none, worker_repeat := 0 }, text3)
        else
          match text3 with
          | [] => .error .indexError
          | c :: rest =>
            if c = '*' then
              match parse_integer rest with
              | .error e => .error e
              | .ok (rep, text4) =>
                .ok ({ dtf := dtf, worker := some (String.mk worker), worker_repeat := rep },
                     lstrip text4)
            else
              .ok ({ dtf := dtf, worker := some (String.mk worker), worker_repeat := 1 },
                   lstrip (c :: rest))

/-- The `while True` loop of `parse_containers`, with explicit fuel.  After
each container the loop continues exactly when the next character is `','`
(consuming it); `text[0]` on an exhausted string raises IndexError. -/
def parse_containers_fuel : Nat → List Char → Except PyErr (List Container × List Char)
  | 0, _ => .error .outOfFuel
  | fuel + 1, l =>
    match parse_one l with
    | .error e => .error e
    | .ok (c, rest) =>
      match rest with
      | [] => .error .indexError
      | ch :: rest2 =>
        if ch = ',' then
          match parse_containers_fuel fuel rest2 with
          | .error e => .error e
          | .ok (cs, rest3) => .ok (c :: cs, rest3)
        else .ok ([c], ch :: rest2)

/-- `parse_containers(text)`: each loop iteration consumes at least the
separating comma, so `text.length + 1` fuel always suffices. -/
def parse_containers (l : List Char) : Except PyErr (List Container × List Char) :=
  parse_containers_fuel (l.length + 1) l

/-- `parse_experiment(text)` on the character-list level: append the `';'`
terminator, parse the containers, and require the rest to start with `';'`. -/
def parse_experiment_chars (l : List Char) : Except PyErr (List Container) :=
  match parse_containers (l ++ [';']) with
  | .error e => .error e
  | .ok (exper, text) =>
    match expect_delim text ';' with
    | .error e => .error e
    | .ok _ => .ok exper

/-- `parse_experiment(text)` from the source. -/
def parse_experiment (s : String) : Except PyErr (List Container) :=
  parse_experiment_chars s.data

/-! ## Fairness scorer (source lines 226-265) -/

/-- `MAX_VALID_WEIGHT = 1000`. -/
def MAX_VALID_WEIGHT : Nat := 1000

/-- A container as seen by the scorer: the hierarchical `name` assigned
during tree build and the requested weight `dtf`. -/
structure BuiltC where
  name : String
  dtf : Nat
deriving DecidableEq, Repr

/-- Python's `s[:-2]`: drop the final two characters. -/
def pyClipLast2 (s : String) : String :=
  String.mk (s.data.take (s.data.length - 2))

/-- `score_max_error(tree, timevals)`: the `total_time` accumulation loop
followed by the per-container loop that folds `maxerr = max(maxerr, error)`
and accumulates the `actual_weights_str` text, clipping the final `', '`.
Python 2 `/` on non-negative ints is floor division (`Nat` division);
`total_time or 1` is 1 when the total is 0. -/
def score_max_error (tree : List BuiltC) (timevals : String → Nat) : Nat × String :=
  let total_time := tree.foldl (fun acc c => acc + timevals c.name) 0
  let res := tree.foldl
    (fun (acc : Nat × String) c =>
      let time := timevals c.name
      let actual_weight := time * MAX_VALID_WEIGHT / (if total_time = 0 then 1 else total_time)
      let err := ((actual_weight : Int) - (c.dtf : Int)).natAbs
      (max acc.1 err, acc.2 ++ toString actual_weight ++ ", "))
    (0, "")
  (res.1, pyClipLast2 res.2)

/-- `score_experiment(...)`: `passing = maxerr_weight <= allowed_err`. -/
def score_experiment (tree : List BuiltC) (timevals : String → Nat) (allowed_err : Nat) : Bool :=
  decide ((score_max_error tree timevals).1 ≤ allowed_err)

/-! Spec-side restatement of the scoring algorithm (§4.5 of the spec),
written from the spec's own words, to be compared with the embedded
source functions. -/

/-- Spec §4.5 step 1: `total = sum(timevals[c] for c in containers)`. -/
def spec_total (tree : List BuiltC) (timevals : String → Nat) : Nat :=
  (tree.map (fun c => timevals c.name)).sum

/-- Spec §4.5 step 2: `achievedWeight = floor(timevals[c] * 1000 / total)`,
with `total` replaced by 1 when it is 0. -/
def spec_achieved (total : Nat) (timeval : Nat) : Nat :=
  timeval * 1000 / (if total = 0 then 1 else total)

/-- Spec §4.5 step 3: `maxError = max over containers of
|achievedWeight - requestedWeight|`. -/
def spec_max_error (tree : List BuiltC) (timevals : String → Nat) : Nat :=
  (tree.map (fun c =>
    ((spec_achieved (spec_total tree timevals) (timevals c.name) : Int) - (c.dtf : Int)).natAbs)).foldr
    max 0

/-! ## Early-termination kill protocol (source lines 268-280) -/

/-- `utils.system('kill %d' % pid, ignore_status=True)`: with
`ignore_status=True` a failed signal delivery (process already gone) is
swallowed, so the call succeeds regardless of the delivery outcome. -/
def utils_system_ignore_status (_delivered : Bool) : Except PyErr Unit :=
  .ok ()

/-- The `for line in open(moved_pids_file)` loop of `kill_slower_workers`:
signal every listed pid other than `fast_pid`; return the list of pids
actually signalled.  `deliver` is the oracle saying whether the signal
reached a live process. -/
def kill_loop (fast_pid : Int) (deliver : Int → Bool) :
    List Int → Except PyErr (List Int)
  | [] => .ok []
  | pid :: rest =>
    if pid ≠ fast_pid then
      match utils_system_ignore_status (deliver pid) with
      | .error e => .error e
      | .ok _ =>
        match kill_loop fast_pid deliver rest with
        | .error e => .error e
        | .ok killed => .ok (pid :: killed)
    else kill_loop fast_pid deliver rest

/-- `kill_slower_workers(fast_pid, cpu_cgroup, pids_file)`.  `renamed` is the
outcome of `os.rename(pids_file, moved_pids_file)`: `none` when the rename
raises OSError (another finisher already moved the file) — the caller
returns without any kill action; `some pids` when the rename succeeds, with
`pids` the process-id lines of the moved file. -/
def kill_slower_workers (fast_pid : Int) (renamed : Option (List Int))
    (deliver : Int → Bool) : Except PyErr (List Int) :=
  match renamed with
  | none => .ok []
  | some pids => kill_loop fast_pid deliver pids

/-! ## Worker command synthesis (source lines 377-499) -/

/-- The cross-experiment session state of `test_harness` used by command
synthesis: file-name counters, the cache of already-zeroed input files
(path → size in MiB), and the log of executed `dd` file-preparation
commands. -/
structure Harness where
  workdir : String
  srcdir : String
  input_file_count : Nat
  output_file_count : Nat
  existing_input_files : List (String × Nat)
  execLog : List String
deriving DecidableEq, Repr

/-- Python dict assignment `d[k] = v` on an association list. -/
def dictSet (m : List (String × Nat)) (k : String) (v : Nat) : List (String × Nat) :=
  if (m.lookup k).isSome then
    m.map (fun p => if p.1 = k then (k, v) else p)
  else m ++ [(k, v)]

/-- `some_zeroed_input_file(prefix, mbytes)`: pick the next `rddata<n>` name,
and if the cached size is smaller than requested, run `dd` to extend the
zero-filled file and record the new size. -/
def some_zeroed_input_file (h : Harness) (pre : String) (mbytes : Nat) : String × Harness :=
  let name := h.workdir ++ "/" ++ pre ++ toString h.input_file_count
  let h1 := { h with input_file_count := h.input_file_count + 1 }
  let old_mbytes := (h1.existing_input_files.lookup name).getD 0
  let h2 :=
    if old_mbytes < mbytes then
      let cmd := "/bin/dd if=/dev/zero of=" ++ name ++ " bs=1M seek=" ++ toString old_mbytes
                 ++ " count=" ++ toString (mbytes - old_mbytes)
      { h1 with execLog := h1.execLog ++ [cmd],
                existing_input_files := dictSet h1.existing_input_files name mbytes }
    else h1
  (name, h2)

/-- `output_file_name(n)` / `some_output_file()`. -/
def some_output_file (h : Harness) : String × Harness :=
  (h.workdir ++ "/write" ++ toString h.output_file_count,
   { h with output_file_count := h.output_file_count + 1 })

/-- `remove_output_files()`: delete the output files and reset the counter. -/
def remove_output_files (h : Harness) : Harness :=
  { h with output_file_count := 0 }

/-- Python's `s.startswith(pre)`, on the character-list representation. -/
def startswith (pre w : String) : Bool :=
  pre.data.isPrefixOf w.data

/-- `worker.split('.', 1)[1]` when a `'.'` is present, `''` otherwise. -/
def variantOf (w : String) : String :=
  match w.data.dropWhile (fun c => c ≠ '.') with
  | [] => ""
  | _ :: rest => String.mk rest

/-- Python `int(s)` on a string: strip whitespace, allow one sign, require a
non-empty digit run; anything else raises ValueError. -/
def pyInt (s : String) : Except PyErr Int :=
  let core := ((s.data.dropWhile pyIsSpace).reverse.dropWhile pyIsSpace).reverse
  match core with
  | '-' :: ds =>
    if ds ≠ [] ∧ ds.all Char.isDigit then .ok (-(natOfDigits ds : Int))
    else .error (.valueError ("invalid literal for int() with base 10: " ++ s))
  | '+' :: ds =>
    if ds ≠ [] ∧ ds.all Char.isDigit then .ok (natOfDigits ds : Int)
    else .error (.valueError ("invalid literal for int() with base 10: " ++ s))
  | ds =>
    if ds ≠ [] ∧ ds.all Char.isDigit then .ok (natOfDigits ds : Int)
    else .error (.valueError ("invalid literal for int() with base 10: " ++ s))

/-- `setup_worker(worker, mbytes)` (source lines 412-478).  Returns the new
session state together with the synthesized shell command (or the raised
exception).  Branch selection uses `worker.startswith(...)` on the whole
worker token, exactly as the source does.  `self.srcdir` is never written
by the harness, so it is read from the input state `h`. -/
def setup_worker (h : Harness) (worker : String) (mbytes : Nat) :
    Harness × Except PyErr String :=
  let variant := variantOf worker
  if startswith "rdseq" worker then
    let (file_name, h1) := some_zeroed_input_file h "rddata" mbytes
    let extra_options := if variant = "dir" then "iflag=direct " else ""
    (h1, .ok ("/bin/dd if=" ++ file_name ++ " of=/dev/null bs=1M count="
              ++ toString mbytes ++ " " ++ extra_options))
  else if startswith "rdrand" worker then
    let (file_name, h1) := some_zeroed_input_file h "rddata" mbytes
    let log_iosize := 16
    let count := ((mbytes <<< 20) >>> log_iosize) / 8
    if startswith "delay" variant then
      match pyInt (String.mk (variant.data.drop 5)) with
      | .error e => (h1, .error e)
      | .ok n =>
        let delayms := "-d " ++ toString n ++ " "
        (h1, .ok (h.srcdir ++ "/rand_read -c " ++ toString count ++ " " ++ delayms
                  ++ toString log_iosize ++ " " ++ file_name))
    else if variant ≠ "" then
      (h1, .error (.valueError ("bad worker: " ++ worker)))
    else
      (h1, .ok (h.srcdir ++ "/rand_read -c " ++ toString count ++ " " ++ ""
                ++ toString log_iosize ++ " " ++ file_name))
  else if startswith "wrseq" worker then
    let (file_name, h1) := some_output_file h
    let scaled :=
      if variant = "sync" then (mbytes / 3, "conv=fdatasync ")
      else if variant = "dir" then (mbytes, "oflag=direct ")
      else (mbytes * 2, "")
    let count := scaled.1 * 16
    (h1, .ok ("/bin/dd if=/dev/zero of=" ++ file_name ++ " bs=64K count="
              ++ toString count ++ " " ++ scaled.2))
  else if worker = "" ∨ worker = "sleep" then
    (h, .ok "")
  else
    (h, .error (.valueError ("unknown worker " ++ worker)))

/-! ## Worker file setup (source lines 481-499) -/

/-- The `for w in xrange(mult)` loop of `setup_worker_files`: synthesize one
command per worker instance, each with `per_worker_mbytes` of IO. -/
def setup_worker_loop (h : Harness) (w : String) (per_worker_mbytes : Nat) :
    Nat → Harness × Except PyErr (List String)
  | 0 => (h, .ok [])
  | n + 1 =>
    match setup_worker h w per_worker_mbytes with
    | (h1, .error e) => (h1, .error e)
    | (h1, .ok cmd) =>
      match setup_worker_loop h1 w per_worker_mbytes n with
      | (h2, .error e) => (h2, .error e)
      | (h2, .ok cmds) => (h2, .ok (cmd :: cmds))

/-- The per-container body of `setup_worker_files`: `mult = worker_repeat`
iterations with `per_worker_mbytes = seq_read_mb // mult`; accessing
`container['worker']` with no worker key raises KeyError (unreachable from
parser output, where a positive repeat implies a worker). -/
def setup_container_cmds (h : Harness) (seq_read_mb : Nat) (c : Container) :
    Harness × Except PyErr (List String) :=
  match c.worker_repeat, c.worker with
  | 0, _ => (h, .ok [])
  | _ + 1, none => (h, .error .keyError)
  | n + 1, some w => setup_worker_loop h w (seq_read_mb / (n + 1)) (n + 1)

/-- `setup_worker_files(seq_read_mb, tree, key_prefix)`: walk the containers
in order, attaching the synthesized `worker_cmds` list to each. -/
def setup_worker_files (h : Harness) (seq_read_mb : Nat) :
    List Container → Harness × Except PyErr (List (Container × List String))
  | [] => (h, .ok [])
  | c :: rest =>
    match setup_container_cmds h seq_read_mb c with
    | (h1, .error e) => (h1, .error e)
    | (h1, .ok cmds) =>
      match setup_worker_files h1 seq_read_mb rest with
      | (h2, .error e) => (h2, .error e)
      | (h2, .ok rs) => (h2, .ok ((c, cmds) :: rs))

/-! ## Experiment run lifecycle (source lines 547-611 and 698-703)

The external collaborators (cgroup creation, cache flushing, worker
processes, the kernel `time` counters, and the pre/post callbacks) are
modeled by an oracle `Env`: each staged call either succeeds or raises
(`some msg` models an exception with message `msg`).  What matters for the
lifecycle claims is faithfully reproduced from the source: the order of the
stages, and the fact that an exception propagates immediately — there is no
`try/finally` in `run_single_experiment`, and no `try/except` around the
experiment loop of `run_experiments`. -/

/-- Outcomes of the external collaborators for one experiment run. -/
structure Env where
  buildOk : Option String
  preCbOk : Option String
  runOk : Option String
  measureOk : Option String
  timevals : String → Nat
  postCbOk : Option String

/-- `TEST_CGROUP_PREFIX`-based container names assigned during tree build:
container `i` becomes `blkcgroupt<i>`. -/
def builtContainers (exper : List Container) : List BuiltC :=
  exper.enum.map (fun p => { name := "blkcgroupt" ++ toString p.1, dtf := p.2.dtf })

/-- Observable result of one `run_single_experiment` call: the session state
after the call, whether `setup_containers` was reached, whether
`release_containers` was reached, the increments to the tried/passed
tallies, and the returned value or propagated exception. -/
structure RunResult where
  harness : Harness
  buildAttempted : Bool
  released : Bool
  triedInc : Nat
  passedInc : Nat
  outcome : Except PyErr Bool
deriving Repr

/-- `run_single_experiment` (source lines 547-611), stage by stage:
parse → reset file counters → `setup_worker_files` → `setup_containers` →
pre-callback → launch/run workers → measure → score (updating the tallies)
→ post-callback → `remove_output_files` → `release_containers`.
Any exception propagates at once, skipping every later stage — including
`release_containers`, which the source does not protect with `try/finally`. -/
def run_single_experiment (env : Env) (h0 : Harness) (experiment : String)
    (seq_read_mb : Nat) (allowed_error : Nat) : RunResult :=
  match parse_experiment experiment with
  | .error e => ⟨h0, false, false, 0, 0, .error e⟩
  | .ok exper =>
    let h1 := { h0 with input_file_count := 0, output_file_count := 0 }
    match setup_worker_files h1 seq_read_mb exper with
    | (h2, .error e) => ⟨h2, false, false, 0, 0, .error e⟩
    | (h2, .ok _withCmds) =>
      match env.buildOk with
      | some m => ⟨h2, true, false, 0, 0, .error (.extError m)⟩
      | none =>
        match env.preCbOk with
        | some m => ⟨h2, true, false, 0, 0, .error (.extError m)⟩
        | none =>
          match env.runOk with
          | some m => ⟨h2, true, false, 0, 0, .error (.extError m)⟩
          | none =>
            match env.measureOk with
            | some m => ⟨h2, true, false, 0, 0, .error (.extError m)⟩
            | none =>
              let passing := score_experiment (builtContainers exper) env.timevals allowed_error
              let passedInc := if passing then 1 else 0
              match env.postCbOk with
              | some m => ⟨h2, true, false, 1, passedInc, .error (.extError m)⟩
              | none =>
                let h3 := remove_output_files h2
                ⟨h3, true, true, 1, passedInc, .ok passing⟩

/-- Aggregate result of the experiment loop of `run_experiments`. -/
structure BatchResult where
  harness : Harness
  attempted : Nat
  tried : Nat
  passed : Nat
  outcome : Except PyErr Unit
deriving Repr

/-- The `for i, experiment in enumerate(experiments)` loop of
`run_experiments` (source lines 698-703).  There is no `try/except` around
`run_single_experiment`, so the first propagated exception aborts the whole
batch: later experiments are not attempted. -/
def run_experiments_loop (env : Env) (seq_read_mb : Nat) :
    Harness → List (String × Nat) → BatchResult
  | h, [] => ⟨h, 0, 0, 0, .ok ()⟩
  | h, (workers, allowed_error) :: rest =>
    let r := run_single_experiment env h workers seq_read_mb allowed_error
    match r.outcome with
    | .error e => ⟨r.harness, 1, r.triedInc, r.passedInc, .error e⟩
    | .ok _ =>
      let b := run_experiments_loop env seq_read_mb r.harness rest
      ⟨b.harness, 1 + b.attempted, r.triedInc + b.tried, r.passedInc + b.passed, b.outcome⟩

/-! ## Shared concrete fixtures used by witnesses and counterexamples -/

/-- A fresh session state: working directory `wd`, source directory `src`. -/
def h0 : Harness := ⟨"wd", "src", 0, 0, [], []⟩

/-- An oracle under which every external stage succeeds and every container
measures 100 disk-time units. -/
def envOK : Env := ⟨none, none, none, none, fun _ => 100, none⟩

/-- An oracle under which the measurement stage raises. -/
def envMeasureFail : Env := ⟨none, none, none, some "measure failed", fun _ => 0, none⟩

/-! ## Claim C3 -/

/-- The kill loop signals exactly the listed pids other than the caller's
own, regardless of whether each signal reaches a live process. -/
theorem kill_loop_eq_filter (fast_pid : Int) (deliver : Int → Bool) :
    ∀ pids : List Int,
      kill_loop fast_pid deliver pids = .ok (pids.filter (fun p => decide (p ≠ fast_pid)))
  | [] => rfl
  | pid :: rest => by
    by_cases hp : pid = fast_pid <;>
      simp [kill_loop, utils_system_ignore_status, List.filter_cons, hp,
            kill_loop_eq_filter fast_pid deliver rest]

/-- C3: a caller whose rename of the pending-workers file fails performs no
kill action; the caller whose rename succeeds signals every pid listed in
the renamed file except its own; and signal-delivery failures are ignored
rather than propagated (the result is `.ok` and independent of the delivery
oracle). -/
theorem c3_kill_protocol :
    ∀ (fast_pid : Int) (pids : List Int) (deliver deliver2 : Int → Bool),
      kill_slower_workers fast_pid none deliver = .ok [] ∧
      kill_slower_workers fast_pid (some pids) deliver
        = .ok (pids.filter (fun p => decide (p ≠ fast_pid))) ∧
      kill_slower_workers fast_pid (some pids) deliver
        = kill_slower_workers fast_pid (some pids) deliver2 := by
  intro fast_pid pids deliver deliver2
  refine ⟨rfl, kill_loop_eq_filter fast_pid deliver pids, ?_⟩
  show kill_loop fast_pid deliver pids = kill_loop fast_pid deliver2 pids
  rw [kill_loop_eq_filter, kill_loop_eq_filter]

/-! ## Claim C4 -/

/-- C4 counterexample: at `perWorkerMB = 6`, `wrseq.sync` synthesizes a
command writing `count=32` blocks of 64 KiB, i.e. `6 // 3 = 2` effective
MiB — not the `6 / 2 = 3` MiB (`count=48`) that halving would give. -/
theorem c4_sync_counterexample :
    (setup_worker h0 "wrseq.sync" 6).2
      = .ok "/bin/dd if=/dev/zero of=wd/write0 bs=64K count=32 conv=fdatasync " ∧
    (setup_worker h0 "wrseq.sync" 6).2
      ≠ .ok "/bin/dd if=/dev/zero of=wd/write0 bs=64K count=48 conv=fdatasync " ∧
    6 / 2 * 16 = 48 ∧ 6 / 3 * 16 = 32 := by
  exact ⟨by decide, by decide, by decide, by decide⟩

/-- C4 as amended: `.sync` divides the effective MiB by 3 (integer
division), not by 2, while forcing `conv=fdatasync` (durable write per
write); `.dir` requests direct IO (`oflag=direct`); the default buffered
variant doubles the effective MiB.  The `count` field counts 64 KiB blocks,
so `count / 16` is the effective MiB written. -/
theorem c4_sync_amended :
    ∀ (h : Harness) (mb : Nat),
      (setup_worker h "wrseq.sync" mb).2 =
        .ok ("/bin/dd if=/dev/zero of=" ++ (h.workdir ++ "/write" ++ toString h.output_file_count)
             ++ " bs=64K count=" ++ toString (mb / 3 * 16) ++ " " ++ "conv=fdatasync ") ∧
      (setup_worker h "wrseq.dir" mb).2 =
        .ok ("/bin/dd if=/dev/zero of=" ++ (h.workdir ++ "/write" ++ toString h.output_file_count)
             ++ " bs=64K count=" ++ toString (mb * 16) ++ " " ++ "oflag=direct ") ∧
      (setup_worker h "wrseq" mb).2 =
        .ok ("/bin/dd if=/dev/zero of=" ++ (h.workdir ++ "/write" ++ toString h.output_file_count)
             ++ " bs=64K count=" ++ toString (mb * 2 * 16) ++ " " ++ "") ∧
      mb / 3 * 16 / 16 = mb / 3 := by
  intro h mb
  exact ⟨rfl, rfl, rfl, by omega⟩

/-! ## Claim C5 -/

/-- C5: command synthesis is deterministic with exactly these volumes —
`wrseq` with the default variant writes `count = (perWorkerMB * 2) * 16`
64 KiB blocks, i.e. `2 * perWorkerMB` effective MiB; `wrseq.sync` writes
`(perWorkerMB // 3) * 16` blocks, i.e. `perWorkerMB // 3` effective MiB;
and `rdrand` with an empty variant leaves the delay slot of the command
empty (no `-d` flag is inserted). -/
theorem c5_synthesis_volumes :
    ∀ (h : Harness) (mb : Nat),
      (setup_worker h "wrseq" mb).2 =
        .ok ("/bin/dd if=/dev/zero of=" ++ (h.workdir ++ "/write" ++ toString h.output_file_count)
             ++ " bs=64K count=" ++ toString (mb * 2 * 16) ++ " " ++ "") ∧
      mb * 2 * 16 / 16 = 2 * mb ∧
      (setup_worker h "wrseq.sync" mb).2 =
        .ok ("/bin/dd if=/dev/zero of=" ++ (h.workdir ++ "/write" ++ toString h.output_file_count)
             ++ " bs=64K count=" ++ toString (mb / 3 * 16) ++ " " ++ "conv=fdatasync ") ∧
      (setup_worker h "rdrand" mb).2 =
        .ok (h.srcdir ++ "/rand_read -c " ++ toString ((mb <<< 20 >>> 16) / 8) ++ " " ++ ""
             ++ toString (16 : Nat) ++ " "
             ++ (h.workdir ++ "/" ++ "rddata" ++ toString h.input_file_count)) := by
  intro h mb
  exact ⟨rfl, by omega, rfl, rfl⟩

/-! ## Claim C1 -/

/-- The `total_time` accumulation loop computes the sum of the containers'
time values. -/
theorem foldl_add_eq_sum (tv : String → Nat) :
    ∀ (l : List BuiltC) (a : Nat),
      l.foldl (fun acc c => acc + tv c.name) a = a + (l.map (fun c => tv c.name)).sum := by
  intro l
  induction l with
  | nil => simp
  | cons c t ih => intro a; simp [ih, Nat.add_assoc]

/-- The max-error component of the per-container scoring loop equals the
spec's maximum of per-container absolute errors. -/
theorem score_fold_fst (tv : String → Nat) (T : Nat) :
    ∀ (l : List BuiltC) (a : Nat) (s : String),
      (l.foldl (fun (acc : Nat × String) c =>
          (max acc.1
             ((((tv c.name * MAX_VALID_WEIGHT / (if T = 0 then 1 else T) : Nat)) : Int)
                - (c.dtf : Int)).natAbs,
           acc.2 ++ toString (tv c.name * MAX_VALID_WEIGHT / (if T = 0 then 1 else T)) ++ ", "))
        (a, s)).1
      = max a ((l.map (fun c =>
          ((spec_achieved T (tv c.name) : Int) - (c.dtf : Int)).natAbs)).foldr max 0) := by
  intro l
  induction l with
  | nil => intro a s; simp
  | cons c t ih =>
    intro a s
    simp only [List.foldl_cons, List.map_cons, List.foldr_cons, ih]
    simp [spec_achieved, MAX_VALID_WEIGHT, Nat.max_assoc]

/-- C1: the scorer totals the containers' time values, substitutes 1 for a
zero total (so an all-zero measurement gives every container achieved
weight 0), computes each achieved weight as `floor(timeval * 1000 / total)`,
takes the maximum absolute deviation from the requested weights, and passes
the experiment iff that maximum is at most the allowed error. -/
theorem c1_scorer :
    ∀ (tree : List BuiltC) (tv : String → Nat) (allowed : Nat),
      (score_max_error tree tv).1 = spec_max_error tree tv ∧
      (score_experiment tree tv allowed = true ↔ spec_max_error tree tv ≤ allowed) ∧
      (spec_total tree tv = 0 →
        ∀ c ∈ tree, spec_achieved (spec_total tree tv) (tv c.name) = 0) := by
  intro tree tv allowed
  have hsum : tree.foldl (fun acc c => acc + tv c.name) 0 = spec_total tree tv := by
    rw [foldl_add_eq_sum]; simp [spec_total]
  have hfst : (score_max_error tree tv).1 = spec_max_error tree tv := by
    simp only [score_max_error, hsum]
    rw [score_fold_fst tv (spec_total tree tv) tree 0 ""]
    simp [spec_max_error]
  refine ⟨hfst, ?_, ?_⟩
  · simp [score_experiment, hfst]
  · intro htot c hc
    have hz : tv c.name = 0 := by
      have : tv c.name ∈ tree.map (fun c => tv c.name) := List.mem_map_of_mem _ hc
      have hall := List.sum_eq_zero_iff.mp htot
      exact hall _ this
    simp [spec_achieved, hz]

/-- Witness for C1: a two-container tree with an all-zero measurement — the
achieved weight of the first container is 0, and the computed maximum error
agrees with the spec formula. -/
theorem c1_scorer_witness :
    spec_achieved (spec_total [⟨"blkcgroupt0", 250⟩, ⟨"blkcgroupt1", 250⟩] (fun _ => 0))
        ((fun _ => 0) "blkcgroupt0") = 0 ∧
    (score_max_error [⟨"blkcgroupt0", 250⟩, ⟨"blkcgroupt1", 250⟩] (fun _ => 0)).1
      = spec_max_error [⟨"blkcgroupt0", 250⟩, ⟨"blkcgroupt1", 250⟩] (fun _ => 0) := by
  refine ⟨?_, (c1_scorer [⟨"blkcgroupt0", 250⟩, ⟨"blkcgroupt1", 250⟩] (fun _ => 0) 300).1⟩
  exact (c1_scorer [⟨"blkcgroupt0", 250⟩, ⟨"blkcgroupt1", 250⟩] (fun _ => 0) 300).2.2
    (by decide) ⟨"blkcgroupt0", 250⟩ (by simp)

/-! ## Claim C2 -/

/-- C2 counterexample: with a tree successfully built (`buildAttempted =
true`) and the measurement stage raising, `release_containers` is NOT
reached (`released = false`) — the exception propagates out of
`run_single_experiment`, which has no `try/finally`, so the containers'
resource handles leak. -/
theorem c2_release_counterexample :
    envMeasureFail.measureOk = some "measure failed" ∧
    (run_single_experiment envMeasureFail h0 "500 rdseq, 500 rdseq" 100 50).buildAttempted
      = true ∧
    (run_single_experiment envMeasureFail h0 "500 rdseq, 500 rdseq" 100 50).released = false ∧
    (run_single_experiment envMeasureFail h0 "500 rdseq, 500 rdseq" 100 50).outcome
      = .error (.extError "measure failed") := by
  exact ⟨rfl, by decide, by decide, by decide⟩

/-- C2 as amended: `release_containers` runs precisely when every stage of
the run completes without raising — it is reached if and only if
`run_single_experiment` returns normally.  An exception in any stage after
tree build (pre-hook, launch/run, measure, post-hook) propagates
immediately and the handles are not released. -/
theorem c2_release_amended :
    ∀ (env : Env) (h : Harness) (s : String) (mb allowed : Nat),
      ((run_single_experiment env h s mb allowed).released = true ↔
        ∃ b, (run_single_experiment env h s mb allowed).outcome = .ok b) := by
  intro env h s mb allowed
  unfold run_single_experiment
  cases hp : parse_experiment s with
  | error e => simp
  | ok exper =>
    rcases hw : setup_worker_files
        { h with input_file_count := 0, output_file_count := 0 } mb exper with ⟨h2, r⟩
    simp only [hw]
    cases r with
    | error e => simp
    | ok w =>
      cases hb : env.buildOk with
      | some m => simp
      | none =>
        cases hpre : env.preCbOk with
        | some m => simp
        | none =>
          cases hrun : env.runOk with
          | some m => simp
          | none =>
            cases hms : env.measureOk with
            | some m => simp
            | none =>
              cases hpost : env.postCbOk with
              | some m => simp
              | none => simp

/-! ## Claim C6 -/

/-- C6 counterexample: a batch of two experiments whose first contains the
unknown worker `fooz`.  The error is raised only during worker-file setup —
after the first container's 400 MiB data file has already been zeroed (a
`dd` ran and the file cache was populated), so resources ARE touched before
the report; and the exception propagates out of `run_single_experiment`
into the uncaught loop of `run_experiments`, so the batch aborts with only
1 of the 2 experiments attempted — the remaining experiment does not run. -/
theorem c6_grammar_counterexample :
    (run_experiments_loop envOK 400 h0 [("500 rdseq, 500 fooz", 100), ("500 rdseq", 100)]).outcome
      = .error (.valueError "unknown worker fooz") ∧
    (run_experiments_loop envOK 400 h0 [("500 rdseq, 500 fooz", 100), ("500 rdseq", 100)]).attempted
      = 1 ∧
    (run_experiments_loop envOK 400 h0
        [("500 rdseq, 500 fooz", 100), ("500 rdseq", 100)]).harness.execLog
      = ["/bin/dd if=/dev/zero of=wd/rddata0 bs=1M seek=0 count=400"] ∧
    (run_experiments_loop envOK 400 h0
        [("500 rdseq, 500 fooz", 100), ("500 rdseq", 100)]).harness.existing_input_files
      = [("wd/rddata0", 400)] := by
  exact ⟨by decide, by decide, by decide, by decide⟩

/-- C6 as amended: a parse error (malformed text, trailing input) is
reported before any resource is touched — `run_single_experiment` returns
with the session state unchanged, no data file allocated and no isolation
unit created; an unknown-worker error is raised during worker-file setup,
before any isolation unit is created but possibly after data files for
earlier containers were allocated.  In both cases the exception propagates
and, since `run_experiments` does not catch it, the batch aborts: the
remaining experiments are not attempted. -/
theorem c6_grammar_amended :
    (∀ (env : Env) (h : Harness) (s : String) (mb a : Nat) (e : PyErr),
       parse_experiment s = .error e →
       run_single_experiment env h s mb a = ⟨h, false, false, 0, 0, .error e⟩) ∧
    (∀ (env : Env) (mb : Nat) (h : Harness) (txt : String) (al : Nat)
       (rest : List (String × Nat)) (e : PyErr),
       (run_single_experiment env h txt mb al).outcome = .error e →
       (run_experiments_loop env mb h ((txt, al) :: rest)).attempted = 1 ∧
       (run_experiments_loop env mb h ((txt, al) :: rest)).outcome = .error e) := by
  constructor
  · intro env h s mb a e hp
    unfold run_single_experiment
    rw [hp]
  · intro env mb h txt al rest e hr
    unfold run_experiments_loop
    simp [hr]

/-- Witness for C6 (amended): a concrete parse error leaves the session
untouched, and a concrete failing first experiment stops the batch after
one attempt. -/
theorem c6_grammar_amended_witness :
    run_single_experiment envOK h0 "500 rdseq x" 100 50
      = ⟨h0, false, false, 0, 0, .error (.valueError "missing ; at x;")⟩ ∧
    (run_experiments_loop envOK 400 h0
        [("500 rdseq, 500 fooz", 100), ("500 rdseq", 100)]).attempted = 1 := by
  constructor
  · exact c6_grammar_amended.1 envOK h0 "500 rdseq x" 100 50
      (.valueError "missing ; at x;") (by decide)
  · exact (c6_grammar_amended.2 envOK 400 h0 "500 rdseq, 500 fooz" 100
      [("500 rdseq", 100)] (.valueError "unknown worker fooz") (by decide)).1

/-! ## Claim C7 -/

/-- C7 counterexample: `rdseqzzz` is not a worker of the grammar, yet the
parser accepts it unchecked and `setup_worker` silently treats it as
`rdseq` (branch selection is `startswith`, not equality): no exception is
raised anywhere and the experiment runs to completion. -/
theorem c7_rejection_counterexample :
    parse_experiment "10 rdseqzzz" = .ok [⟨10, some "rdseqzzz", 1⟩] ∧
    (setup_worker h0 "rdseqzzz" 100).2
      = .ok "/bin/dd if=wd/rddata0 of=/dev/null bs=1M count=100 " ∧
    (run_single_experiment envOK h0 "10 rdseqzzz" 100 1000).outcome = .ok true := by
  exact ⟨by decide, by decide, by decide⟩

/-- C7 as amended: the parser does not validate worker names at all;
trailing input and a `*` not preceded by a worker do raise ValueError at
parse time, and no defaulted container is produced for them.  A worker name
is rejected (ValueError, raised later in `setup_worker`, before any
isolation unit exists) iff it is neither empty nor `sleep` and does not
merely BEGIN with `rdseq`, `rdrand` or `wrseq`; a name that extends one of
those (e.g. `rdseqzzz`) is silently run as the prefixed worker. -/
theorem c7_rejection_amended :
    (∀ (h : Harness) (w : String) (mb : Nat),
       startswith "rdseq" w = false → startswith "rdrand" w = false →
       startswith "wrseq" w = false → w ≠ "" → w ≠ "sleep" →
       setup_worker h w mb = (h, .error (.valueError ("unknown worker " ++ w)))) ∧
    parse_experiment "10 *3" = .error (.valueError "missing ; at *3;") ∧
    parse_experiment "10 rdseq extra" = .error (.valueError "missing ; at extra;") := by
  refine ⟨?_, by decide, by decide⟩
  intro h w mb h1 h2 h3 h4 h5
  simp [setup_worker, h1, h2, h3, h4, h5]

/-- Witness for C7 (amended): the worker `bogus` matches no known stem and
is rejected with the exact `unknown worker` ValueError. -/
theorem c7_rejection_amended_witness :
    setup_worker h0 "bogus" 5 = (h0, .error (.valueError "unknown worker bogus")) := by
  exact c7_rejection_amended.1 h0 "bogus" 5 (by decide) (by decide) (by decide)
    (by decide) (by decide)

/-! ## Claim C8 -/

/-- Leading whitespace is stripped through an arbitrary run of spaces. -/
theorem lstrip_replicate_append : ∀ (n : Nat) (l : List Char),
    lstrip (List.replicate n ' ' ++ l) = lstrip l
  | 0, _ => rfl
  | n + 1, l => lstrip_replicate_append n l

/-- A container clause is parsed from its `lstrip`: two texts with the same
`lstrip` parse identically. -/
theorem parse_one_congr (a b : List Char) (hab : lstrip a = lstrip b) :
    parse_one a = parse_one b := by
  unfold parse_one; rw [hab]

/-- Extra spaces before the weight of a container clause do not change the
parse. -/
theorem parse_one_replicate (n : Nat) (l : List Char) :
    parse_one (List.replicate n ' ' ++ l) = parse_one l :=
  parse_one_congr _ _ (lstrip_replicate_append n l)

/-- Extra spaces between the weight and the worker token are skipped: the
clause parses to the same container for any run of spaces. -/
theorem parse_one_spaces_before_worker : ∀ n : Nat,
    parse_one ("500 ".data ++ (List.replicate n ' ' ++ "rdseq*2;".data))
      = .ok (⟨500, some "rdseq", 2⟩, [';'])
  | 0 => by decide
  | n + 1 => parse_one_spaces_before_worker n

/-- Whitespace before `*` is NOT skipped: the worker clause ends at the
space, leaving `*2;` unconsumed with the default repeat of 1. -/
theorem parse_one_space_before_star : ∀ n : Nat,
    parse_one ("500 rdseq".data ++ (List.replicate (n + 1) ' ' ++ "*2;".data))
      = .ok (⟨500, some "rdseq", 1⟩, '*' :: '2' :: ';' :: [])
  | 0 => by decide
  | n + 1 => parse_one_space_before_star n

/-- A one-clause experiment whose clause consumes everything up to the
appended terminator parses to exactly that container. -/
theorem parse_experiment_chars_one (l : List Char) (c : Container)
    (hp : parse_one (l ++ [';']) = .ok (c, [';'])) :
    parse_experiment_chars l = .ok [c] := by
  unfold parse_experiment_chars parse_containers
  simp only [parse_containers_fuel, hp]
  rfl

/-- A one-clause experiment with unconsumed text that starts with neither
`,` nor `;` fails with the `expect_delim` ValueError. -/
theorem parse_experiment_chars_one_err (l : List Char) (c : Container) (d : Char)
    (rest : List Char) (hp : parse_one (l ++ [';']) = .ok (c, d :: rest))
    (hd1 : d ≠ ',') (hd2 : d ≠ ';') :
    parse_experiment_chars l
      = .error (.valueError ("missing " ++ String.mk [';'] ++ " at " ++ String.mk (d :: rest))) := by
  unfold parse_experiment_chars parse_containers
  simp only [parse_containers_fuel, hp]
  simp [expect_delim, hd1, hd2]

/-- C8 counterexample: the claim's third whitespace position is wrong — the
same clause with a single space inserted before `*` no longer parses; the
parser raises the trailing-input ValueError instead of yielding the same
container list. -/
theorem c8_whitespace_counterexample :
    parse_experiment "500 rdseq*2" = .ok [⟨500, some "rdseq", 2⟩] ∧
    parse_experiment "500 rdseq *2" = .error (.valueError "missing ; at *2;") := by
  exact ⟨by decide, by decide⟩

/-- C8 as amended: whitespace is skipped before each weight (each clause is
parsed from its `lstrip`) and before each worker token (any run of extra
spaces between weight and worker yields the same parse), but NOT before
`*Repeat`: any positive run of spaces between the worker and `*` makes the
experiment fail with a trailing-input ValueError. -/
theorem c8_whitespace_amended :
    (∀ (n : Nat) (l : List Char), parse_one (List.replicate n ' ' ++ l) = parse_one l) ∧
    (∀ n : Nat,
      parse_experiment_chars ("500 ".data ++ (List.replicate n ' ' ++ "rdseq*2".data))
        = .ok [⟨500, some "rdseq", 2⟩]) ∧
    (∀ n : Nat,
      parse_experiment_chars ("500 rdseq".data ++ (List.replicate (n + 1) ' ' ++ "*2".data))
        = .error (.valueError "missing ; at *2;")) := by
  refine ⟨parse_one_replicate, ?_, ?_⟩
  · intro n
    apply parse_experiment_chars_one
    have he : ("500 ".data ++ (List.replicate n ' ' ++ "rdseq*2".data)) ++ [';']
        = "500 ".data ++ (List.replicate n ' ' ++ "rdseq*2;".data) := by
      rw [List.append_assoc, List.append_assoc]; rfl
    rw [he]
    exact parse_one_spaces_before_worker n
  · intro n
    have he : ("500 rdseq".data ++ (List.replicate (n + 1) ' ' ++ "*2".data)) ++ [';']
        = "500 rdseq".data ++ (List.replicate (n + 1) ' ' ++ "*2;".data) := by
      rw [List.append_assoc, List.append_assoc]; rfl
    have hp := parse_one_space_before_star n
    rw [← he] at hp
    have hres := parse_experiment_chars_one_err _ _ '*' ['2', ';'] hp (by decide) (by decide)
    rw [hres]
    decide


/-! ## Claim C9 -/

/-- A single parsed clause with no worker always carries repeat 0: the
`repeat = 0` initialization is overwritten only inside `if worker:`. -/
theorem parse_one_worker_none (l : List Char) (c : Container) (r : List Char)
    (h : parse_one l = .ok (c, r)) (hw : c.worker = none) : c.worker_repeat = 0 := by
  unfold parse_one at h
  repeat' split at h
  all_goals cases h
  all_goals first | rfl | simp at hw

/-- Every container produced by the `parse_containers` loop with no worker
key has repeat 0 (at any fuel). -/
theorem parse_containers_fuel_worker_none :
    ∀ (fuel : Nat) (l : List Char) (cs : List Container) (r : List Char),
      parse_containers_fuel fuel l = .ok (cs, r) →
      ∀ c ∈ cs, c.worker = none → c.worker_repeat = 0 := by
  intro fuel
  induction fuel with
  | zero => intro l cs r h; simp [parse_containers_fuel] at h
  | succ n ih =>
    intro l cs r h
    simp only [parse_containers_fuel] at h
    rcases hp : parse_one l with e | ⟨c1, rest⟩ <;> rw [hp] at h <;> dsimp only [] at h
    · cases h
    · rcases rest with _ | ⟨ch, rest2⟩ <;> dsimp only [] at h
      · cases h
      · by_cases hc : ch = ','
        · rw [if_pos hc] at h
          rcases hq : parse_containers_fuel n rest2 with e | ⟨cs', r'⟩ <;> rw [hq] at h <;>
            dsimp only [] at h
          · cases h
          · cases h
            intro c hmem hw
            rcases List.mem_cons.mp hmem with hceq | hmem'
            · subst hceq; exact parse_one_worker_none l c (ch :: rest2) hp hw
            · exact ih rest2 cs' _ hq c hmem' hw
        · rw [if_neg hc] at h
          cases h
          intro c hmem hw
          rcases List.mem_cons.mp hmem with hceq | hmem'
          · subst hceq; exact parse_one_worker_none l c (ch :: rest2) hp hw
          · cases hmem'

/-- C9 counterexample: the experiment `10 rdseq*0` is accepted by the
parser and yields a container whose worker IS present (`rdseq`) while its
`worker_repeat` is 0 — the claimed iff fails in the direction
`worker_repeat = 0 → worker absent`. -/
theorem c9_invariant_counterexample :
    parse_experiment "10 rdseq*0" = .ok [⟨10, some "rdseq", 0⟩] ∧
    (some "rdseq" : Option String) ≠ none ∧
    (⟨10, some "rdseq", 0⟩ : Container).worker_repeat = 0 := by
  exact ⟨by decide, by decide, rfl⟩

/-- C9 as amended: only one direction of the claimed iff holds of parser
output — every parsed container WITHOUT a worker has `worker_repeat = 0`
(equivalently, a positive repeat implies a worker is present); a container
WITH a worker normally has repeat ≥ 1, but an explicit `*0` produces a
container with a worker and repeat 0. -/
theorem c9_invariant_amended :
    ∀ (s : String) (cs : List Container), parse_experiment s = .ok cs →
      ∀ c ∈ cs, c.worker = none → c.worker_repeat = 0 := by
  intro s cs h c hmem hw
  unfold parse_experiment parse_experiment_chars at h
  rcases hq : parse_containers (s.data ++ [';']) with e | ⟨cs', r'⟩ <;> rw [hq] at h <;>
    dsimp only [] at h
  · cases h
  · rcases he : expect_delim r' ';' with e | rest <;> rw [he] at h <;> dsimp only [] at h
    · cases h
    · cases h
      exact parse_containers_fuel_worker_none _ _ _ _ hq c hmem hw

/-- Witness for C9 (amended): in `10, 20 rdseq` the first container has no
worker, and the theorem yields its repeat 0. -/
theorem c9_invariant_amended_witness :
    (⟨10, none, 0⟩ : Container).worker_repeat = 0 := by
  exact c9_invariant_amended "10, 20 rdseq" [⟨10, none, 0⟩, ⟨20, some "rdseq", 1⟩]
    (by decide) ⟨10, none, 0⟩ (by simp) rfl

/-! ## Claim C10 -/

/-- Splitting off a matched run never lengthens the text. -/
theorem dropWhile_length_le (p : Char → Bool) : ∀ l : List Char, (l.dropWhile p).length ≤ l.length := by
  intro l
  induction l with
  | nil => simp
  | cons a t ih =>
    by_cases ha : p a
    · simp [List.dropWhile_cons, ha]; omega
    · simp [List.dropWhile_cons, ha]

/-- A run of characters not matching `';'` cannot consume the `';'`
terminator. -/
theorem mem_dropWhile_semi (p : Char → Bool) (hp : p ';' = false) :
    ∀ l : List Char, ';' ∈ l → ';' ∈ l.dropWhile p := by
  intro l
  induction l with
  | nil => simp
  | cons a t ih =>
    intro hmem
    by_cases ha : p a
    · have hne : (';' : Char) ≠ a := by
        intro he; rw [← he] at ha; rw [hp] at ha; cases ha
      have hm : ';' ∈ t := by
        rcases List.mem_cons.mp hmem with h1 | h1
        · exact absurd h1 hne
        · exact h1
      simpa [List.dropWhile_cons, ha] using ih hm
    · simpa [List.dropWhile_cons, ha] using hmem

/-- `lstrip` keeps the `';'` terminator and never lengthens the text. -/
theorem lstrip_semi : ∀ l : List Char, ';' ∈ l →
    ';' ∈ lstrip l ∧ (lstrip l).length ≤ l.length := by
  intro l
  induction l with
  | nil => simp
  | cons a t ih =>
    intro hmem
    by_cases ha : pyIsSpace a
    · have hne : (';' : Char) ≠ a := by
        intro he; rw [← he] at ha; cases ha
      have hm : ';' ∈ t := by
        rcases List.mem_cons.mp hmem with h1 | h1
        · exact absurd h1 hne
        · exact h1
      obtain ⟨h1, h2⟩ := ih hm
      refine ⟨?_, ?_⟩ <;> simp [lstrip, ha, h1]
      omega
    · have heq : lstrip (a :: t) = a :: t := by simp [lstrip, ha]
      rw [heq]
      exact ⟨hmem, Nat.le_refl _⟩

/-- `parse_integer` either raises the `int('')` ValueError or returns the
digit run's value with the rest of the text; it never raises IndexError. -/
theorem parse_integer_cases (l : List Char) :
    parse_integer l = .error (.valueError "invalid literal for int() with base 10") ∨
    parse_integer l = .ok (natOfDigits (l.takeWhile Char.isDigit), l.dropWhile Char.isDigit) := by
  simp only [parse_integer]
  split
  · exact Or.inl rfl
  · exact Or.inr rfl

/-- On text still containing the `';'` terminator, `parse_name` always
succeeds (the scan stops at `';'` at the latest, within bounds) and leaves
the terminator in the rest. -/
theorem parse_name_semi : ∀ l : List Char, ';' ∈ l →
    ∃ nm r, parse_name l = .ok (nm, r) ∧ ';' ∈ r ∧ r.length ≤ l.length := by
  intro l
  induction l with
  | nil => simp
  | cons a t ih =>
    intro hmem
    by_cases ha : nameStop a
    · exact ⟨[], a :: t, by simp [parse_name, ha], hmem, Nat.le_refl _⟩
    · have hne : (';' : Char) ≠ a := by
        intro he; rw [← he] at ha; exact ha rfl
      have hm : ';' ∈ t := by
        rcases List.mem_cons.mp hmem with h1 | h1
        · exact absurd h1 hne
        · exact h1
      obtain ⟨nm, r, hok, hr, hlen⟩ := ih hm
      refine ⟨a :: nm, r, ?_, hr, by simp; omega⟩
      simp [parse_name, ha, hok]

/-- On text still containing the `';'` terminator, one container clause
either raises a ValueError (from `int('')`) or parses, leaving the
terminator in the unconsumed rest; no IndexError is possible. -/
theorem parse_one_semi (l : List Char) (hsem : ';' ∈ l) :
    (∃ m, parse_one l = .error (.valueError m)) ∨
    (∃ c r, parse_one l = .ok (c, r) ∧ ';' ∈ r ∧ r.length ≤ l.length) := by
  obtain ⟨hm0, hl0⟩ := lstrip_semi l hsem
  rcases parse_integer_cases (lstrip l) with he | hok
  · exact Or.inl ⟨_, by unfold parse_one; rw [he]⟩
  · have hm1 : ';' ∈ (lstrip l).dropWhile Char.isDigit :=
      mem_dropWhile_semi Char.isDigit (by decide) _ hm0
    have hl1 : ((lstrip l).dropWhile Char.isDigit).length ≤ (lstrip l).length :=
      dropWhile_length_le _ _
    obtain ⟨nm1, t2, hok2, hm2, hl2⟩ := parse_name_semi _ hm1
    obtain ⟨hm2s, hl2s⟩ := lstrip_semi t2 hm2
    obtain ⟨w, t3, hok3, hm3, hl3⟩ := parse_name_semi (lstrip t2) hm2s
    by_cases hw : w = []
    · refine Or.inr ⟨⟨natOfDigits ((lstrip l).takeWhile Char.isDigit), none, 0⟩, t3,
        ?_, hm3, by omega⟩
      · unfold parse_one
        rw [hok]; try dsimp only []
        rw [hok2]; try dsimp only []
        rw [hok3]; try dsimp only []
        rw [if_pos hw]
    · rcases t3 with _ | ⟨d, t4⟩
      · cases hm3
      · have hcons : (d :: t4).length = t4.length + 1 := rfl
        by_cases hd : d = '*'
        · subst hd
          have hm4 : ';' ∈ t4 := by
            rcases List.mem_cons.mp hm3 with h1 | h1
            · exact absurd h1 (by decide)
            · exact h1
          rcases parse_integer_cases t4 with he2 | hok4
          · refine Or.inl ⟨"invalid literal for int() with base 10", ?_⟩
            unfold parse_one
            rw [hok]; try dsimp only []
            rw [hok2]; try dsimp only []
            rw [hok3]; try dsimp only []
            rw [if_neg hw]; try dsimp only []
            rw [if_pos rfl, he2]
          · have hm5 := mem_dropWhile_semi Char.isDigit (by decide) _ hm4
            obtain ⟨hm6, hl6⟩ := lstrip_semi _ hm5
            have hl7 := dropWhile_length_le Char.isDigit t4
            refine Or.inr ⟨⟨natOfDigits ((lstrip l).takeWhile Char.isDigit), some (String.mk w),
              natOfDigits (t4.takeWhile Char.isDigit)⟩, lstrip (t4.dropWhile Char.isDigit), ?_, ?_, ?_⟩
            · unfold parse_one
              rw [hok]; try dsimp only []
              rw [hok2]; try dsimp only []
              rw [hok3]; try dsimp only []
              rw [if_neg hw]; try dsimp only []
              rw [if_pos rfl, hok4]
            · exact hm6
            · omega
        · obtain ⟨hm7, hl8⟩ := lstrip_semi (d :: t4) hm3
          refine Or.inr ⟨⟨natOfDigits ((lstrip l).takeWhile Char.isDigit), some (String.mk w), 1⟩,
            lstrip (d :: t4), ?_, ?_, ?_⟩
          · unfold parse_one
            rw [hok]; try dsimp only []
            rw [hok2]; try dsimp only []
            rw [hok3]; try dsimp only []
            rw [if_neg hw]; try dsimp only []
            rw [if_neg hd]
          · exact hm7
          · omega

/-- With fuel exceeding the text length and the `';'` terminator present,
the container loop either raises a ValueError or returns a non-empty
container list with the terminator still in the rest — never IndexError
and never out of fuel. -/
theorem parse_containers_fuel_semi :
    ∀ (fuel : Nat) (l : List Char), ';' ∈ l → l.length < fuel →
      (∃ m, parse_containers_fuel fuel l = .error (.valueError m)) ∨
      (∃ cs r, parse_containers_fuel fuel l = .ok (cs, r) ∧ cs ≠ [] ∧ ';' ∈ r) := by
  intro fuel
  induction fuel with
  | zero => intro l hm hlen; omega
  | succ n ih =>
    intro l hm hlen
    rcases parse_one_semi l hm with ⟨m, he⟩ | ⟨c, r, hok, hmr, hlr⟩
    · exact Or.inl ⟨m, by simp only [parse_containers_fuel]; rw [he]⟩
    · rcases r with _ | ⟨ch, r2⟩
      · cases hmr
      · have hcons : (ch :: r2).length = r2.length + 1 := rfl
        by_cases hch : ch = ','
        · have hm2 : ';' ∈ r2 := by
            rcases List.mem_cons.mp hmr with h1 | h1
            · rw [hch] at h1; exact absurd h1 (by decide)
            · exact h1
          have hlen2 : r2.length < n := by omega
          rcases ih r2 hm2 hlen2 with ⟨m, he2⟩ | ⟨cs', r', hok2, hne, hmr'⟩
          · refine Or.inl ⟨m, ?_⟩
            simp only [parse_containers_fuel]
            rw [hok]; try dsimp only []
            rw [if_pos hch, he2]
          · refine Or.inr ⟨c :: cs', r', ?_, by simp, hmr'⟩
            simp only [parse_containers_fuel]
            rw [hok]; try dsimp only []
            rw [if_pos hch, hok2]
        · refine Or.inr ⟨[c], ch :: r2, ?_, by simp, hmr⟩
          simp only [parse_containers_fuel]
          rw [hok]; try dsimp only []
          rw [if_neg hch]

/-- C10: `parse_experiment` is total up to ValueError — for every input
string it either returns a non-empty container list or raises ValueError,
and never fails with an out-of-range index (modeled as `indexError`) or
exhausts the loop fuel: the `';'` appended before parsing guarantees that
every character scan in `parse_name`, `parse_integer` and
`parse_containers` stops at a delimiter within bounds. -/
theorem c10_parse_total :
    ∀ s : String,
      (∃ cs, parse_experiment s = .ok cs ∧ cs ≠ []) ∨
      (∃ m, parse_experiment s = .error (.valueError m)) := by
  intro s
  have hm : ';' ∈ s.data ++ [';'] := by simp
  have hlen : (s.data ++ [';']).length < (s.data ++ [';']).length + 1 := Nat.lt_succ_self _
  unfold parse_experiment parse_experiment_chars parse_containers
  rcases parse_containers_fuel_semi _ _ hm hlen with ⟨m, he⟩ | ⟨cs, r, hok, hne, hmr⟩
  · right
    exact ⟨m, by rw [he]⟩
  · rw [hok]
    try dsimp only []
    rcases r with _ | ⟨d, rest⟩
    · cases hmr
    · by_cases hd : d = ';'
      · left
        refine ⟨cs, ?_, hne⟩
        simp [expect_delim, hd]
      · right
        refine ⟨"missing " ++ String.mk [';'] ++ " at " ++ String.mk (d :: rest), ?_⟩
        simp [expect_delim, hd]
